import Mathlib

/-!
Verification of the PAM (partition around medoids) implementation in
`src/src/pam.cpp` / `src/include/clupp/pam.hpp` of the clupp repository.

The C++ code is shallowly embedded as follows:

* `double` values become `ℚ`; all distance matrices in scope are exact small
  rationals, so `double` arithmetic on them is exact and the embedding is
  faithful.  The two floating-point constants the code uses,
  `std::numeric_limits<double>::min()` (the smallest positive normalised
  double, `2^-1022`) and `std::numeric_limits<double>::max()`
  (`(2^53 - 1) * 2^971`), are embedded as those exact rationals.
* `std::set<int>` becomes a strictly sorted `List Nat`; insertion keeps the
  order, erasure is a filter, and iteration over the set is a left fold over
  the list, which reproduces the ascending iteration order of `std::set`.
* `Eigen::MatrixXd` becomes `List (List ℚ)` with out-of-range reads
  defaulting to `0` (the C++ code never reads out of range on the inputs
  considered here).
* the `while(perform_swaps)` loop of `refine` becomes a fuel-indexed
  iteration `refineSteps`; `refineSteps D fuel s = none` means the C++ loop
  is still running after `fuel` iterations, and `= some t` means the loop
  exited with final state `t`.
-/

attribute [local semireducible] Rat.add Rat.sub Rat.mul Rat.inv

set_option maxRecDepth 8000

namespace Clupp

/-- A distance matrix: list of rows. -/
abbrev Mat := List (List ℚ)

/-- Matrix read `distances(i, j)`, defaulting to `0` out of range. -/
def dist (D : Mat) (i j : Nat) : ℚ := (D.getD i []).getD j 0

/-- The constant `std::numeric_limits<double>::min()`: the smallest positive
normalised double, `2^-1022`.  This (and not the lowest double) seeds
`maximum_gain` in `find_next_medoid`. -/
def dblMin : ℚ :=
  ⟨1, 44942328371557897693232629769725618340449424473557664318357520289433168951375240783177119330601884005280028469967848339414697442203604155623211857659868531094441973356216371319075554900311523529863270738021251442209537670585615720368478277635206809290837627671146574559986811484619929076208839082406056034304, by decide, by decide⟩

/-- The constant `std::numeric_limits<double>::max()`, `(2^53 - 1) * 2^971`,
which seeds `minimum_contribution` in `refine`. -/
def dblMax : ℚ :=
  ⟨179769313486231570814527423731704356798070567525844996598917476803157260780028538760589558632766878171540458953514382464234321326889464182768467546703537516986049910576551282076245490090389328944075868508455133942304583236903222948165808559332123348274797826204144723168738177180919299881250404026184124858368, 1, by decide, by decide⟩

/-- Insertion `std::set<int>::insert` into a sorted duplicate-free list. -/
def setInsert (x : Nat) : List Nat → List Nat
  | [] => [x]
  | y :: ys => if x < y then x :: y :: ys else if x = y then y :: ys else y :: setInsert x ys

/-- Erasure `std::set<int>::erase` of an element of a duplicate-free list. -/
def setErase (x : Nat) (l : List Nat) : List Nat := l.filter (fun y => y ≠ x)

/-- The mutable clustering state `pam_data` of `pam.cpp`. -/
structure pam_data where
  medoids : List Nat
  nonselected : List Nat
  classification : List Nat
  second_closest_medoid : List Nat
deriving Repr, DecidableEq

/-- The `pam_data` constructor: every object is provisionally assigned to the
initial medoid, `nonselected` is `{0..n-1}` minus the initial medoid. -/
def pam_data.init (number_of_objects initial_medoid : Nat) : pam_data :=
  { medoids := [initial_medoid]
  , nonselected := setErase initial_medoid (List.range number_of_objects)
  , classification := List.replicate number_of_objects initial_medoid
  , second_closest_medoid := List.replicate number_of_objects initial_medoid }

/-- The mutator `pam_data::assign_medoid`. -/
def pam_data.assign_medoid (s : pam_data) (object medoid : Nat) : pam_data :=
  { s with classification := s.classification.set object medoid }

/-- The mutator `pam_data::add_medoid`. -/
def pam_data.add_medoid (s : pam_data) (medoid : Nat) : pam_data :=
  pam_data.assign_medoid
    { s with medoids := setInsert medoid s.medoids
           , nonselected := setErase medoid s.nonselected }
    medoid medoid

/-- The mutator `pam_data::swap_medoid`: demote `old`, promote `new_`, and relabel every
`classification` / `second_closest_medoid` entry equal to `old` to `new_`. -/
def pam_data.swap_medoid (s : pam_data) (old new_ : Nat) : pam_data :=
  let s2 := pam_data.add_medoid
    { s with medoids := setErase old s.medoids
           , nonselected := setInsert old s.nonselected } new_
  { s2 with classification := s2.classification.map (fun c => if c = old then new_ else c)
          , second_closest_medoid :=
              s2.second_closest_medoid.map (fun c => if c = old then new_ else c) }

/-- The function `find_initial_medoid`: the object with the minimum sum of dissimilarities
(first minimum wins, as with Eigen's `minCoeff`). -/
def find_initial_medoid (D : Mat) : Nat :=
  let sums := D.map (fun row => row.sum)
  (List.range D.length).foldl
    (fun best i => if sums.getD i 0 < sums.getD best 0 then i else best) 0

/-- The gain of selecting `i` as a new medoid: the body of the outer loop of
`find_next_medoid`, summed over the other nonselected objects `j`. -/
def gain (D : Mat) (s : pam_data) (i : Nat) : ℚ :=
  ((setErase i s.nonselected).map (fun j =>
      max (dist D j (s.classification.getD j 0) - dist D j i) 0)).sum

/-- The function `find_next_medoid`: `maximum_gain` starts at
`std::numeric_limits<double>::min()` and `next_medoid` at `0`; a candidate
replaces the current one only with a strictly greater gain. -/
def find_next_medoid (D : Mat) (s : pam_data) : Nat :=
  (s.nonselected.foldl
    (fun acc i =>
      let g := gain D s i
      if g > acc.1 then (g, i) else acc)
    (dblMin, 0)).2

/-- The inner loop of `reclassify_objects` for one object `o`: walk the
medoids in ascending order, reassigning `o` when a strictly closer medoid is
found and updating its second-closest medoid. -/
def reclassify_object (D : Mat) (s : pam_data) (o : Nat) : pam_data :=
  s.medoids.foldl
    (fun st m =>
      let om := st.classification.getD o 0
      if om ≠ m then
        let sc := st.second_closest_medoid.getD o 0
        let cur := dist D o om
        let secd := dist D o sc
        let pot := dist D o m
        if pot < cur then
          { st with classification := st.classification.set o m
                  , second_closest_medoid := st.second_closest_medoid.set o om }
        else if pot < secd then
          { st with second_closest_medoid := st.second_closest_medoid.set o m }
        else st
      else st)
    s

/-- The function `reclassify_objects`: full reassignment pass; returns the total
dissimilarity together with the updated state. -/
def reclassify_objects (D : Mat) (s : pam_data) : ℚ × pam_data :=
  s.nonselected.foldl
    (fun acc o =>
      let st := reclassify_object D acc.2 o
      (acc.1 + dist D o (st.classification.getD o 0), st))
    ((0 : ℚ), s)

/-- The Build stage `build`: initial medoid plus `k - 1` greedy additions, each followed by a
full reclassification pass. -/
def build (k : Nat) (D : Mat) : pam_data :=
  let initial_medoid := find_initial_medoid D
  let s0 := pam_data.init D.length initial_medoid
  (List.range (k - 1)).foldl
    (fun s _ =>
      (reclassify_objects D (s.add_medoid (find_next_medoid D s))).2)
    s0

/-- The function `calculate_swap_cost`: the cost of replacing medoid `i` by nonselected
object `h`, summed over the nonselected objects other than `h`. -/
def calculate_swap_cost (D : Mat) (i h : Nat) (s : pam_data) : ℚ :=
  ((setErase h s.nonselected).map (fun j =>
      let Dj := dist D j (s.classification.getD j 0)
      let dji := dist D j i
      let djh := dist D j h
      if Dj ≥ dji then
        let Ej := dist D j (s.second_closest_medoid.getD j 0)
        if djh < Ej then djh - dji else Ej - dji
      else if Dj < dji ∧ Dj > djh then djh - Dj
      else 0)).sum

/-- The candidate-scan of one iteration of `refine`'s outer loop:
`minimum_contribution` starts at `std::numeric_limits<double>::max()`,
`old_medoid` and `new_medoid` at `-1`; a pair replaces the current one only
with a strictly smaller contribution. -/
def best_swap (D : Mat) (s : pam_data) : ℚ × Int × Int :=
  s.medoids.foldl
    (fun acc i =>
      s.nonselected.foldl
        (fun acc2 h =>
          let c := calculate_swap_cost D i h s
          if c < acc2.1 then (c, ((i : Int), (h : Int))) else acc2)
        acc)
    (dblMax, (-1, -1))

/-- One iteration of `refine`'s `while` loop: `some s'` when an improving
swap was performed (swap followed by a reclassification pass), `none` when
the loop exits. -/
def refine_step (D : Mat) (s : pam_data) : Option pam_data :=
  let b := best_swap D s
  if b.1 < 0 ∧ 0 ≤ b.2.1 ∧ 0 ≤ b.2.2 then
    some (reclassify_objects D (s.swap_medoid b.2.1.toNat b.2.2.toNat)).2
  else none

/-- The Refine stage `refine`, fuel-indexed: `none` means the C++ `while` loop is still
running after `fuel` iterations; `some t` means it exited with state `t`. -/
def refineSteps (D : Mat) : Nat → pam_data → Option pam_data
  | 0, _ => none
  | fuel + 1, s =>
    match refine_step D s with
    | none => some s
    | some s2 => refineSteps D fuel s2

/-- The public result type `pam_result` of `pam.hpp`. -/
structure pam_result where
  medoids : List Nat
  classification : List Nat
deriving Repr, DecidableEq

instance {ε α : Type} [DecidableEq ε] [DecidableEq α] : DecidableEq (Except ε α) :=
  fun a b =>
    match a, b with
    | Except.error e, Except.error f =>
      if h : e = f then isTrue (by rw [h]) else isFalse (by intro hc; cases hc; exact h rfl)
    | Except.error _, Except.ok _ => isFalse (by intro hc; cases hc)
    | Except.ok _, Except.error _ => isFalse (by intro hc; cases hc)
    | Except.ok x, Except.ok y =>
      if h : x = y then isTrue (by rw [h]) else isFalse (by intro hc; cases hc; exact h rfl)

/-- The entry point `partition_around_medoids`.  Modelled from the spec:
`calculate_distance_matrix` lives in `src/distance.cpp`, which is not among
the sources; the spec (§6) says only that the Distance Provider maps the
observation matrix to an n×n symmetric, non-negative, zero-diagonal matrix.
The provider is therefore passed as a parameter `provider`, and the
validation (which in the C++ code throws before the provider is invoked)
is checked before `provider` is applied.  `Except.ok none` means the
`refine` loop is still running after `fuel` iterations. -/
def partition_around_medoids (fuel : Nat) (k : Int) (obs : Mat)
    (provider : Mat → Mat) : Except String (Option pam_result) :=
  if k < 2 then
    Except.error "Error: less than two partitions were requested."
  else if (obs.length : Int) < k then
    Except.error "Error: not enough rows to create k partitions."
  else
    let distances := provider obs
    match refineSteps distances fuel (build k.toNat distances) with
    | none => Except.ok none
    | some t => Except.ok (some { medoids := t.medoids, classification := t.classification })

/-- The swap-cost formula exactly as the spec states it (§4.2), with the
four cases written out flatly: sum over nonselected `j ≠ h` of
`d_j_h − d_j_i` when `D_j ≥ d_j_i` and `d_j_h < E_j`, `E_j − d_j_i` when
`D_j ≥ d_j_i` and `d_j_h ≥ E_j`, `d_j_h − D_j` when `D_j < d_j_i` and
`D_j > d_j_h`, and `0` otherwise. -/
def swap_cost_spec (D : Mat) (i h : Nat) (s : pam_data) : ℚ :=
  ((s.nonselected.filter (fun j => j ≠ h)).map (fun j =>
      let Dj := dist D j (s.classification.getD j 0)
      let dji := dist D j i
      let djh := dist D j h
      let Ej := dist D j (s.second_closest_medoid.getD j 0)
      if Dj ≥ dji ∧ djh < Ej then djh - dji
      else if Dj ≥ dji ∧ Ej ≤ djh then Ej - dji
      else if Dj < dji ∧ Dj > djh then djh - Dj
      else 0)).sum

/-- Validity of a distance matrix as required by the spec: square rows,
symmetric, non-negative, zero diagonal. -/
def validDistanceMatrix (D : Mat) : Prop :=
  (∀ i < D.length, (D.getD i []).length = D.length) ∧
  (∀ i < D.length, ∀ j < D.length, dist D i j = dist D j i) ∧
  (∀ i < D.length, ∀ j < D.length, 0 ≤ dist D i j) ∧
  (∀ i < D.length, dist D i i = 0)

instance : DecidablePred validDistanceMatrix := fun _ => by
  unfold validDistanceMatrix; infer_instance

/-- The self-assignment invariant of the spec (§3):
`∀ m ∈ medoids, classification[m] = m`. -/
def SelfClassified (s : pam_data) : Prop :=
  ∀ m ∈ s.medoids, s.classification[m]? = some m

/-- Well-formedness of a clustering state over `n` objects: all indices in
range, `medoids` and `nonselected` disjoint, arrays of length `n`, every
medoid self-classified, every object classified to a medoid. -/
structure WF (n : Nat) (s : pam_data) : Prop where
  med_lt : ∀ m ∈ s.medoids, m < n
  non_lt : ∀ o ∈ s.nonselected, o < n
  cls_len : s.classification.length = n
  sec_len : s.second_closest_medoid.length = n
  disj : ∀ m ∈ s.medoids, m ∉ s.nonselected
  self : SelfClassified s
  cls_mem : ∀ o < n, ∃ c, s.classification[o]? = some c ∧ c ∈ s.medoids

/-- The n = 5 distance matrix on which `refine` cycles forever. -/
def Dcyc : Mat :=
  [[0, 6, 2, 7, 5], [6, 0, 9, 5, 8], [2, 9, 0, 8, 8], [7, 5, 8, 0, 4], [5, 8, 8, 4, 0]]

/-- The state `build 2 Dcyc`: medoids `{0, 4}`. -/
def sCyc0 : pam_data :=
  { medoids := [0, 4], nonselected := [1, 2, 3]
  , classification := [0, 0, 0, 4, 4], second_closest_medoid := [0, 0, 0, 0, 0] }

/-- The state one `refine` iteration after `sCyc0`: medoids `{3, 4}`.  One
further iteration returns to `sCyc0`. -/
def sCyc1 : pam_data :=
  { medoids := [3, 4], nonselected := [0, 1, 2]
  , classification := [4, 3, 3, 3, 4], second_closest_medoid := [3, 3, 3, 3, 3] }

/-- The 2-object distance matrix `[[0,1],[1,0]]`. -/
def Dtwo : Mat := [[0, 1], [1, 0]]

/-- The 3-object distance matrix `[[0,1,2],[1,0,3],[2,3,0]]`. -/
def Dthree : Mat := [[0, 1, 2], [1, 0, 3], [2, 3, 0]]

/-- The all-equal 3-object distance matrix: every off-diagonal entry is 1. -/
def Deq : Mat := [[0, 1, 1], [1, 0, 1], [1, 1, 0]]

/-- The spec's 4-object two-cluster scenario matrix (§8), symmetrised. -/
def Dfour : Mat := [[0, 1, 9, 9], [1, 0, 9, 9], [9, 9, 0, 1], [9, 9, 1, 0]]

/-- A predicate preserved by every step of a left fold holds of the fold. -/
theorem foldl_preserve {α β : Type} (P : α → Prop) (f : α → β → α) :
    ∀ (l : List β) (s : α), P s → (∀ a b, b ∈ l → P a → P (f a b)) → P (l.foldl f s) := by
  intro l
  induction l with
  | nil => intro s h _; exact h
  | cons b t ih =>
    intro s h hstep
    exact ih (f s b) (hstep s b (List.mem_cons_self b t) h)
      (fun a c hc => hstep a c (List.mem_cons_of_mem b hc))

/-- Membership in `setInsert`. -/
theorem mem_setInsert {a x : Nat} : ∀ {l : List Nat}, a ∈ setInsert x l ↔ a = x ∨ a ∈ l := by
  intro l
  induction l with
  | nil => simp [setInsert]
  | cons y ys ih =>
    simp only [setInsert]
    split
    · simp only [List.mem_cons]
    · split
      · next heq =>
        subst heq
        simp only [List.mem_cons]
        tauto
      · simp only [List.mem_cons, ih]
        tauto

/-- Membership in `setErase`. -/
theorem mem_setErase {a x : Nat} {l : List Nat} : a ∈ setErase x l ↔ a ∈ l ∧ a ≠ x := by
  simp [setErase]

/-- The function `find_initial_medoid` returns an index below the number of rows. -/
theorem find_initial_medoid_lt (D : Mat) (h : 0 < D.length) :
    find_initial_medoid D < D.length := by
  unfold find_initial_medoid
  refine foldl_preserve (fun b => b < D.length) _ (List.range D.length) 0 h ?_
  intro a b hb _
  dsimp only
  split
  · exact List.mem_range.mp hb
  · assumption

/-- The function `find_next_medoid` returns `0` or a nonselected object. -/
theorem find_next_medoid_zero_or_mem (D : Mat) (s : pam_data) :
    find_next_medoid D s = 0 ∨ find_next_medoid D s ∈ s.nonselected := by
  unfold find_next_medoid
  refine foldl_preserve (fun acc : ℚ × Nat => acc.2 = 0 ∨ acc.2 ∈ s.nonselected) _
    s.nonselected (dblMin, 0) (Or.inl rfl) ?_
  intro a b hb ha
  dsimp only
  split
  · exact Or.inr hb
  · exact ha

/-- The constructor establishes well-formedness. -/
theorem WF_init {n i : Nat} (h : i < n) : WF n (pam_data.init n i) := by
  constructor
  · intro m hm
    exact (List.mem_singleton.mp hm) ▸ h
  · intro o ho
    exact List.mem_range.mp (mem_setErase.mp ho).1
  · exact List.length_replicate n i
  · exact List.length_replicate n i
  · intro m hm hmem
    exact (mem_setErase.mp hmem).2 (List.mem_singleton.mp hm)
  · intro m hm
    have hmi := List.mem_singleton.mp hm
    subst hmi
    exact List.getElem?_replicate_of_lt h
  · intro o ho
    exact ⟨i, List.getElem?_replicate_of_lt ho, List.mem_singleton.mpr rfl⟩

/-- Adding a medoid below `n` preserves well-formedness. -/
theorem WF_add {n : Nat} {s : pam_data} (hs : WF n s) {m : Nat} (hm : m < n) :
    WF n (s.add_medoid m) := by
  constructor
  · intro a ha
    rcases mem_setInsert.mp ha with h | h
    · exact h ▸ hm
    · exact hs.med_lt a h
  · intro o ho
    exact hs.non_lt o (mem_setErase.mp ho).1
  · simpa [pam_data.add_medoid, pam_data.assign_medoid] using hs.cls_len
  · exact hs.sec_len
  · intro a ha hmem
    have h2 := mem_setErase.mp hmem
    rcases mem_setInsert.mp ha with h | h
    · exact h2.2 h
    · exact hs.disj a h h2.1
  · intro a ha
    show (s.classification.set m m)[a]? = some a
    rcases mem_setInsert.mp ha with h | h
    · subst h
      exact List.getElem?_set_self (hs.cls_len ▸ hm)
    · by_cases hma : m = a
      · subst hma
        exact List.getElem?_set_self (hs.cls_len ▸ hm)
      · rw [List.getElem?_set_ne hma]
        exact hs.self a h
  · intro o ho
    show ∃ c, (s.classification.set m m)[o]? = some c ∧ c ∈ setInsert m s.medoids
    by_cases hmo : m = o
    · subst hmo
      exact ⟨m, List.getElem?_set_self (hs.cls_len ▸ hm), mem_setInsert.mpr (Or.inl rfl)⟩
    · obtain ⟨c, hc, hcm⟩ := hs.cls_mem o ho
      exact ⟨c, by rw [List.getElem?_set_ne hmo]; exact hc, mem_setInsert.mpr (Or.inr hcm)⟩

/-- Swapping preserves well-formedness when called, as `refine` does,
with a current medoid and a nonselected object. -/
theorem WF_swap {n : Nat} {s : pam_data} (hs : WF n s) {old new_ : Nat}
    (hold : old ∈ s.medoids) (hnew : new_ ∈ s.nonselected) :
    WF n (s.swap_medoid old new_) := by
  have hnewlt : new_ < n := hs.non_lt new_ hnew
  have holdlt : old < n := hs.med_lt old hold
  have hfnew : (if new_ = old then new_ else new_) = new_ := by split <;> rfl
  constructor
  · intro a ha
    rcases mem_setInsert.mp ha with h | h
    · exact h ▸ hnewlt
    · exact hs.med_lt a (mem_setErase.mp h).1
  · intro o ho
    have h2 := mem_setErase.mp ho
    rcases mem_setInsert.mp h2.1 with h | h
    · exact h ▸ holdlt
    · exact hs.non_lt o h
  · simp [pam_data.swap_medoid, pam_data.add_medoid, pam_data.assign_medoid, hs.cls_len]
  · simp [pam_data.swap_medoid, pam_data.add_medoid, pam_data.assign_medoid, hs.sec_len]
  · intro a ha hmem
    have h2 := mem_setErase.mp hmem
    rcases mem_setInsert.mp ha with h | h
    · exact h2.2 h
    · have h3 := mem_setErase.mp h
      rcases mem_setInsert.mp h2.1 with h4 | h4
      · exact h3.2 h4
      · exact hs.disj a h3.1 h4
  · intro a ha
    show (((s.classification.set new_ new_).map
        (fun c => if c = old then new_ else c))[a]?) = some a
    rw [List.getElem?_map]
    rcases mem_setInsert.mp ha with h | h
    · subst h
      rw [List.getElem?_set_self (hs.cls_len ▸ hnewlt)]
      simp
    · have h3 := mem_setErase.mp h
      by_cases hna : new_ = a
      · subst hna
        rw [List.getElem?_set_self (hs.cls_len ▸ hnewlt)]
        simp
      · rw [List.getElem?_set_ne hna, hs.self a h3.1]
        simp [h3.2]
  · intro o ho
    show ∃ c, (((s.classification.set new_ new_).map
        (fun c => if c = old then new_ else c))[o]?) = some c ∧
        c ∈ setInsert new_ (setErase old s.medoids)
    rw [List.getElem?_map]
    by_cases hno : new_ = o
    · subst hno
      rw [List.getElem?_set_self (hs.cls_len ▸ hnewlt)]
      exact ⟨new_, by simp, mem_setInsert.mpr (Or.inl rfl)⟩
    · obtain ⟨c, hc, hcm⟩ := hs.cls_mem o ho
      rw [List.getElem?_set_ne hno, hc]
      by_cases hco : c = old
      · exact ⟨new_, by simp [hco], mem_setInsert.mpr (Or.inl rfl)⟩
      · exact ⟨c, by simp [hco],
          mem_setInsert.mpr (Or.inr (mem_setErase.mpr ⟨hcm, hco⟩))⟩

/-- The inner reclassification loop preserves well-formedness and leaves the
medoid and nonselected sets unchanged. -/
theorem WF_reclassify_object {n : Nat} {D : Mat} {s : pam_data} (hs : WF n s) {o : Nat}
    (ho : o ∈ s.nonselected) :
    WF n (reclassify_object D s o) ∧
    (reclassify_object D s o).medoids = s.medoids ∧
    (reclassify_object D s o).nonselected = s.nonselected := by
  unfold reclassify_object
  refine foldl_preserve
    (fun st => WF n st ∧ st.medoids = s.medoids ∧ st.nonselected = s.nonselected) _
    s.medoids s ⟨hs, rfl, rfl⟩ ?_
  rintro st m hm ⟨hWF, hmeds, hns⟩
  have host : o ∈ st.nonselected := hns.symm ▸ ho
  have holt : o < n := hWF.non_lt o host
  dsimp only
  split
  · split
    · refine ⟨?_, hmeds, hns⟩
      constructor
      · exact hWF.med_lt
      · exact hWF.non_lt
      · simp [hWF.cls_len]
      · simp [hWF.sec_len]
      · exact hWF.disj
      · intro a ha
        have hao : o ≠ a := fun he => hWF.disj a ha (he ▸ host)
        show (st.classification.set o m)[a]? = some a
        rw [List.getElem?_set_ne hao]
        exact hWF.self a ha
      · intro o2 ho2
        show ∃ c, (st.classification.set o m)[o2]? = some c ∧ c ∈ st.medoids
        by_cases hoo : o = o2
        · subst hoo
          exact ⟨m, List.getElem?_set_self (hWF.cls_len ▸ holt), hmeds.symm ▸ hm⟩
        · obtain ⟨c, hc, hcm⟩ := hWF.cls_mem o2 ho2
          exact ⟨c, by rw [List.getElem?_set_ne hoo]; exact hc, hcm⟩
    · split
      · refine ⟨?_, hmeds, hns⟩
        constructor
        · exact hWF.med_lt
        · exact hWF.non_lt
        · exact hWF.cls_len
        · simp [hWF.sec_len]
        · exact hWF.disj
        · exact hWF.self
        · exact hWF.cls_mem
      · exact ⟨hWF, hmeds, hns⟩
  · exact ⟨hWF, hmeds, hns⟩

/-- The full reclassification pass preserves well-formedness and the medoid
and nonselected sets. -/
theorem WF_reclassify_objects {n : Nat} {D : Mat} {s : pam_data} (hs : WF n s) :
    WF n (reclassify_objects D s).2 ∧
    (reclassify_objects D s).2.medoids = s.medoids ∧
    (reclassify_objects D s).2.nonselected = s.nonselected := by
  unfold reclassify_objects
  refine foldl_preserve
    (fun acc : ℚ × pam_data =>
      WF n acc.2 ∧ acc.2.medoids = s.medoids ∧ acc.2.nonselected = s.nonselected) _
    s.nonselected ((0 : ℚ), s) ⟨hs, rfl, rfl⟩ ?_
  rintro acc b hb ⟨hWF, hmeds, hns⟩
  dsimp only
  have h2 := WF_reclassify_object (D := D) hWF (hns.symm ▸ hb)
  exact ⟨h2.1, h2.2.1.trans hmeds, h2.2.2.trans hns⟩

/-- The Build stage produces a well-formed state over `n = D.length` objects. -/
theorem WF_build {k : Nat} {D : Mat} (h : 0 < D.length) : WF D.length (build k D) := by
  unfold build
  refine foldl_preserve (fun s => WF D.length s) _ (List.range (k - 1))
    (pam_data.init D.length (find_initial_medoid D))
    (WF_init (find_initial_medoid_lt D h)) ?_
  intro s b _ hsWF
  dsimp only
  refine (WF_reclassify_objects ?_).1
  rcases find_next_medoid_zero_or_mem D s with h0 | hmem
  · rw [h0]
    exact WF_add hsWF h
  · exact WF_add hsWF (hsWF.non_lt _ hmem)

/-- The pair selected by `refine`'s candidate scan is either the `(-1, -1)`
sentinel or a (medoid, nonselected) pair. -/
theorem best_swap_spec (D : Mat) (s : pam_data) :
    (best_swap D s).2 = (-1, -1) ∨
    (0 ≤ (best_swap D s).2.1 ∧ 0 ≤ (best_swap D s).2.2 ∧
      (best_swap D s).2.1.toNat ∈ s.medoids ∧ (best_swap D s).2.2.toNat ∈ s.nonselected) := by
  unfold best_swap
  refine foldl_preserve
    (fun acc : ℚ × Int × Int =>
      acc.2 = (-1, -1) ∨
      (0 ≤ acc.2.1 ∧ 0 ≤ acc.2.2 ∧ acc.2.1.toNat ∈ s.medoids ∧ acc.2.2.toNat ∈ s.nonselected)) _
    s.medoids (dblMax, (-1, -1)) (Or.inl rfl) ?_
  intro acc i hi hacc
  refine foldl_preserve
    (fun acc2 : ℚ × Int × Int =>
      acc2.2 = (-1, -1) ∨
      (0 ≤ acc2.2.1 ∧ 0 ≤ acc2.2.2 ∧ acc2.2.1.toNat ∈ s.medoids ∧
        acc2.2.2.toNat ∈ s.nonselected)) _
    s.nonselected acc hacc ?_
  intro acc2 h hh hacc2
  dsimp only
  split
  · refine Or.inr ⟨Int.natCast_nonneg i, Int.natCast_nonneg h, ?_, ?_⟩
    · simpa [Int.toNat_natCast] using hi
    · simpa [Int.toNat_natCast] using hh
  · exact hacc2

/-- One executed `refine` swap preserves well-formedness. -/
theorem WF_refine_step {n : Nat} {D : Mat} {s t : pam_data} (hs : WF n s)
    (h : refine_step D s = some t) : WF n t := by
  unfold refine_step at h
  dsimp only at h
  split at h
  · next hcond =>
    injection h with h
    subst h
    rcases best_swap_spec D s with hb | ⟨_, _, hbi, hbh⟩
    · rw [hb] at hcond
      exact absurd hcond.2.1 (by decide)
    · exact (WF_reclassify_objects (WF_swap hs hbi hbh)).1
  · cases h

/-- Every state reached by `refineSteps` from a well-formed state is
well-formed. -/
theorem WF_refineSteps {n : Nat} {D : Mat} :
    ∀ {fuel : Nat} {s t : pam_data}, WF n s → refineSteps D fuel s = some t → WF n t := by
  intro fuel
  induction fuel with
  | zero => intro s t _ h; cases h
  | succ f ih =>
    intro s t hs h
    rw [refineSteps] at h
    cases h2 : refine_step D s with
    | none => rw [h2] at h; injection h with h; exact h ▸ hs
    | some s2 => rw [h2] at h; exact ih (WF_refine_step hs h2) h

/-- On `Dcyc`, `build` with `k = 2` produces the state `sCyc0`. -/
theorem build_Dcyc : build 2 Dcyc = sCyc0 := by decide

/-- From `sCyc0`, `refine` swaps medoid 0 for object 3, reaching `sCyc1`. -/
theorem refine_step_cyc0 : refine_step Dcyc sCyc0 = some sCyc1 := by decide

/-- From `sCyc1`, `refine` swaps back, returning to `sCyc0`. -/
theorem refine_step_cyc1 : refine_step Dcyc sCyc1 = some sCyc0 := by decide

/-- Refine never leaves the two-state cycle `sCyc0 ↔ sCyc1`: no amount of
fuel makes the loop exit. -/
theorem refineSteps_cyc (fuel : Nat) :
    refineSteps Dcyc fuel sCyc0 = none ∧ refineSteps Dcyc fuel sCyc1 = none := by
  induction fuel with
  | zero => exact ⟨rfl, rfl⟩
  | succ f ih =>
    constructor
    · rw [refineSteps]
      simp only [refine_step_cyc0]
      exact ih.2
    · rw [refineSteps]
      simp only [refine_step_cyc1]
      exact ih.1

/-- Claim C1: for every valid input the result is claimed to have exactly `k`
medoids.  The code violates this: with 2 objects at distance 1 and `k = 2`,
`find_next_medoid` finds no candidate whose gain exceeds
`std::numeric_limits<double>::min()`, returns object 0 (already a medoid),
and the returned result has a single medoid. -/
theorem claim_C1 :
    validDistanceMatrix Dtwo ∧ Dtwo.length = 2 ∧
    ∃ r : pam_result,
      partition_around_medoids 3 2 [[0], [1]] (fun _ => Dtwo) = Except.ok (some r) ∧
      r.medoids.length = 1 :=
  ⟨by decide, by decide, ⟨⟨[0], [0, 0]⟩, by decide, by decide⟩⟩

/-- Claim C2: Build and Refine are claimed to terminate on every valid
distance matrix.  The code violates this: `Dcyc` is a valid (symmetric,
non-negative, zero-diagonal) 5×5 matrix on which `refine`'s `while` loop
cycles between two states forever, so no fuel suffices. -/
theorem claim_C2 :
    validDistanceMatrix Dcyc ∧ Dcyc.length = 5 ∧
    ∀ fuel : Nat, refineSteps Dcyc fuel (build 2 Dcyc) = none := by
  refine ⟨by decide, by decide, fun fuel => ?_⟩
  rw [build_Dcyc]
  exact (refineSteps_cyc fuel).1

/-- Claim C3: `calculate_swap_cost` computes exactly the case-defined sum
stated in the spec (§4.2), for every state and every pair of objects. -/
theorem claim_C3 (D : Mat) (i h : Nat) (s : pam_data) :
    calculate_swap_cost D i h s = swap_cost_spec D i h s := by
  unfold calculate_swap_cost swap_cost_spec setErase
  congr 1
  refine List.map_congr_left ?_
  intro j _
  dsimp only
  by_cases h1 : dist D j (s.classification.getD j 0) ≥ dist D j i
  · by_cases h2 : dist D j h < dist D j (s.second_closest_medoid.getD j 0)
    · rw [if_pos h1, if_pos h2, if_pos ⟨h1, h2⟩]
    · rw [if_pos h1, if_neg h2, if_neg (fun hc => h2 hc.2), if_pos ⟨h1, not_lt.mp h2⟩]
  · conv_rhs => rw [if_neg (fun hc => h1 hc.1), if_neg (fun hc => h1 hc.1)]
    rw [if_neg h1]

/-- Claim C4: validation is claimed to reject exactly `k < 2` and
`rows < k`, before any distance computation, and every other input is
claimed to return a Result.  The rejection behaviour holds (the error is
produced for every Distance Provider alike, i.e. before the provider runs),
but the final conjunct fails on the code: with the valid 5-object input
whose distances are `Dcyc`, the refine loop never terminates, so no Result
is ever returned (`Except.ok none` for every fuel). -/
theorem claim_C4 :
    (∀ (fuel : Nat) (k : Int) (obs : Mat) (provider : Mat → Mat), k < 2 →
        partition_around_medoids fuel k obs provider
          = Except.error "Error: less than two partitions were requested.") ∧
    (∀ (fuel : Nat) (k : Int) (obs : Mat) (provider : Mat → Mat),
        2 ≤ k → (obs.length : Int) < k →
        partition_around_medoids fuel k obs provider
          = Except.error "Error: not enough rows to create k partitions.") ∧
    (∀ (fuel : Nat) (k : Int) (obs : Mat) (provider : Mat → Mat),
        2 ≤ k → k ≤ (obs.length : Int) →
        ∃ o, partition_around_medoids fuel k obs provider = Except.ok o) ∧
    (∀ fuel : Nat,
        partition_around_medoids fuel 2 [[0], [1], [2], [3], [4]] (fun _ => Dcyc)
          = Except.ok none) := by
  refine ⟨?_, ?_, ?_, ?_⟩
  · intro fuel k obs provider hk
    unfold partition_around_medoids
    rw [if_pos hk]
  · intro fuel k obs provider hk hlen
    unfold partition_around_medoids
    rw [if_neg (not_lt.mpr hk), if_pos hlen]
  · intro fuel k obs provider hk hlen
    unfold partition_around_medoids
    rw [if_neg (not_lt.mpr hk), if_neg (not_lt.mpr hlen)]
    dsimp only
    cases heq : refineSteps (provider obs) fuel (build k.toNat (provider obs)) with
    | none => exact ⟨none, rfl⟩
    | some t => exact ⟨some { medoids := t.medoids, classification := t.classification }, rfl⟩
  · intro fuel
    unfold partition_around_medoids
    rw [if_neg (by decide), if_neg (by decide)]
    dsimp only
    have hb : build (Int.toNat 2) Dcyc = sCyc0 := build_Dcyc
    rw [hb, (refineSteps_cyc fuel).1]

/-- Claim C5: each Build iteration is claimed to add the nonselected
candidate of maximum gain, ties to the lowest index.  The code violates
this (and `find_next_medoid`'s own doc comment, which promises a
nonselected object): on the all-equal matrix `Deq`, from the initial state
both candidates 1 and 2 have gain 0, no gain exceeds the
`std::numeric_limits<double>::min()` seed, and `find_next_medoid` returns
object 0, which is already a medoid, instead of candidate 1. -/
theorem claim_C5 :
    validDistanceMatrix Deq ∧
    find_initial_medoid Deq = 0 ∧
    (pam_data.init 3 0).nonselected.map (gain Deq (pam_data.init 3 0)) = [0, 0] ∧
    find_next_medoid Deq (pam_data.init 3 0) = 0 ∧
    0 ∈ (pam_data.init 3 0).medoids ∧
    0 ∉ (pam_data.init 3 0).nonselected := by decide

/-- Claim C6: with `k = n` every object is claimed to become its own medoid.
The code violates this: on the 3-object matrix `Dthree` with `k = 3`, the
last Build iterations find no gain above the `DBL_MIN` seed, keep returning
object 0, and the result has the single medoid 0 with
`classification = [0, 0, 0]` (so `classification[1] ≠ 1`). -/
theorem claim_C6 :
    validDistanceMatrix Dthree ∧ Dthree.length = 3 ∧
    partition_around_medoids 2 3 [[0], [1], [2]] (fun _ => Dthree)
      = Except.ok (some { medoids := [0], classification := [0, 0, 0] }) ∧
    ({ medoids := [0], classification := [0, 0, 0] : pam_result }).classification.getD 1 99 ≠ 1 := by
  decide

/-- Claim C7: Refine is a fixed point.  Whenever the refine loop exits with
state `t` (any fuel, any start state), the terminal state admits no further
improving swap, so re-running `refine` on `t` performs zero swaps and
returns `t` unchanged. -/
theorem claim_C7 (D : Mat) (fuel : Nat) (s t : pam_data)
    (h : refineSteps D fuel s = some t) :
    refine_step D t = none ∧ ∀ g : Nat, refineSteps D (g + 1) t = some t := by
  induction fuel generalizing s with
  | zero => cases h
  | succ f ih =>
    rw [refineSteps] at h
    cases h2 : refine_step D s with
    | none =>
      rw [h2] at h
      have h3 : some s = some t := h
      injection h3 with h3
      subst h3
      refine ⟨h2, fun g => ?_⟩
      rw [refineSteps, h2]
    | some s2 =>
      rw [h2] at h
      exact ih s2 h

/-- Witness for C7 at the spec's 4-object scenario: `refine` exits after the
first scan, and re-running it returns the same state. -/
theorem claim_C7_witness :
    refine_step Dfour
      { medoids := [0, 2], nonselected := [1, 3]
      , classification := [0, 0, 2, 2], second_closest_medoid := [0, 0, 0, 0] } = none ∧
    refineSteps Dfour 1
      { medoids := [0, 2], nonselected := [1, 3]
      , classification := [0, 0, 2, 2], second_closest_medoid := [0, 0, 0, 0] }
      = some { medoids := [0, 2], nonselected := [1, 3]
             , classification := [0, 0, 2, 2], second_closest_medoid := [0, 0, 0, 0] } := by
  have h := claim_C7 Dfour 1 (build 2 Dfour)
    { medoids := [0, 2], nonselected := [1, 3]
    , classification := [0, 0, 2, 2], second_closest_medoid := [0, 0, 0, 0] } (by decide)
  exact ⟨h.1, h.2 0⟩

/-- Claim C8: every medoid is its own representative (`classification[m] = m`)
after the constructor, after every `add_medoid`, after every `swap_medoid`
on a well-formed state, and in every Result the entry point returns. -/
theorem claim_C8 :
    (∀ n i : Nat, i < n → SelfClassified (pam_data.init n i)) ∧
    (∀ (n : Nat) (s : pam_data) (m : Nat), WF n s → m < n →
        SelfClassified (s.add_medoid m)) ∧
    (∀ (n : Nat) (s : pam_data) (i h : Nat), WF n s → i ∈ s.medoids → h ∈ s.nonselected →
        SelfClassified (s.swap_medoid i h)) ∧
    (∀ (fuel : Nat) (k : Int) (obs : Mat) (provider : Mat → Mat) (r : pam_result),
        (provider obs).length = obs.length →
        partition_around_medoids fuel k obs provider = Except.ok (some r) →
        ∀ m ∈ r.medoids, r.classification[m]? = some m) := by
  refine ⟨?_, ?_, ?_, ?_⟩
  · intro n i hi
    exact (WF_init hi).self
  · intro n s m hs hm
    exact (WF_add hs hm).self
  · intro n s i h hs hi hh
    exact (WF_swap hs hi hh).self
  · intro fuel k obs provider r hn hp
    unfold partition_around_medoids at hp
    split at hp
    · injection hp
    · next hge =>
      split at hp
      · injection hp
      · next hlen =>
        dsimp only at hp
        cases heq : refineSteps (provider obs) fuel (build k.toNat (provider obs)) with
        | none =>
          rw [heq] at hp
          have hp2 : (Except.ok none : Except String (Option pam_result))
              = Except.ok (some r) := hp
          injection hp2 with hp3
          injection hp3
        | some t =>
          rw [heq] at hp
          have hp2 : (Except.ok (some (pam_result.mk t.medoids t.classification))
              : Except String (Option pam_result)) = Except.ok (some r) := hp
          injection hp2 with hp3
          injection hp3 with hp4
          have hn0 : 0 < (provider obs).length := by
            rw [hn]
            omega
          have hWF := WF_refineSteps (WF_build (k := k.toNat) hn0) heq
          subst hp4
          exact hWF.self

/-- Witness for C8: the constructor case at `n = 2, i = 0`, and the final
Result of the `Dthree` run. -/
theorem claim_C8_witness :
    (pam_data.init 2 0).classification[0]? = some 0 ∧
    (pam_result.mk [0] [0, 0, 0]).classification[0]? = some 0 :=
  ⟨claim_C8.1 2 0 (by decide) 0 (by decide),
   claim_C8.2.2.2 2 3 [[0], [1], [2]] (fun _ => Dthree) (pam_result.mk [0] [0, 0, 0])
     (by decide) (by decide) 0 (by decide)⟩

/-- Claim C9: in every Result returned by the entry point, every object is
classified to a member of the medoid set. -/
theorem claim_C9 (fuel : Nat) (k : Int) (obs : Mat) (provider : Mat → Mat)
    (r : pam_result) (hn : (provider obs).length = obs.length)
    (hp : partition_around_medoids fuel k obs provider = Except.ok (some r)) :
    ∀ o < obs.length, ∃ c, r.classification[o]? = some c ∧ c ∈ r.medoids := by
  unfold partition_around_medoids at hp
  split at hp
  · injection hp
  · next hge =>
    split at hp
    · injection hp
    · next hlen =>
      dsimp only at hp
      cases heq : refineSteps (provider obs) fuel (build k.toNat (provider obs)) with
      | none =>
        rw [heq] at hp
        have hp2 : (Except.ok none : Except String (Option pam_result))
            = Except.ok (some r) := hp
        injection hp2 with hp3
        injection hp3
      | some t =>
        rw [heq] at hp
        have hp2 : (Except.ok (some (pam_result.mk t.medoids t.classification))
            : Except String (Option pam_result)) = Except.ok (some r) := hp
        injection hp2 with hp3
        injection hp3 with hp4
        have hn0 : 0 < (provider obs).length := by
          rw [hn]
          omega
        have hWF := WF_refineSteps (WF_build (k := k.toNat) hn0) heq
        subst hp4
        intro o ho
        exact hWF.cls_mem o (by rw [hn]; exact ho)

/-- Witness for C9: object 1 of the `Dthree` run is classified to medoid 0. -/
theorem claim_C9_witness :
    (pam_result.mk [0] [0, 0, 0]).classification[1]? = some 0 := by
  obtain ⟨c, hc, hcm⟩ := claim_C9 2 3 [[0], [1], [2]] (fun _ => Dthree)
    (pam_result.mk [0] [0, 0, 0]) (by decide) (by decide) 1 (by decide)
  have hc0 : c = 0 := List.mem_singleton.mp hcm
  exact hc0 ▸ hc

/-- Claim C10 (implicit behaviour): when no nonselected candidate's gain
exceeds `std::numeric_limits<double>::min()`, `find_next_medoid` returns 0
whether or not 0 is selected; `add_medoid 0` on a state whose sorted medoid
set already contains 0 changes neither set; and consequently `build` can
finish with fewer than `k` medoids, as it does on `Deq` with `k = 2`. -/
theorem claim_C10 :
    (∀ (D : Mat) (s : pam_data),
        (∀ i ∈ s.nonselected, gain D s i ≤ dblMin) → find_next_medoid D s = 0) ∧
    (∀ s : pam_data, 0 ∈ s.medoids → s.medoids.Sorted (· < ·) → 0 ∉ s.nonselected →
        (s.add_medoid 0).medoids = s.medoids ∧
        (s.add_medoid 0).nonselected = s.nonselected) ∧
    (build 2 Deq).medoids.length < 2 := by
  refine ⟨?_, ?_, by decide⟩
  · intro D s hg
    unfold find_next_medoid
    refine congrArg Prod.snd (foldl_preserve (fun acc : ℚ × Nat => acc = (dblMin, 0)) _
      s.nonselected (dblMin, 0) rfl ?_)
    intro a b hb ha
    subst ha
    dsimp only
    rw [if_neg (not_lt.mpr (hg b hb))]
  · intro s h0 hsort hns
    constructor
    · show setInsert 0 s.medoids = s.medoids
      cases hm : s.medoids with
      | nil => rw [hm] at h0; cases h0
      | cons y ys =>
        rw [hm] at h0 hsort
        have hy : ¬ 0 < y := by
          intro hy
          rcases List.mem_cons.mp h0 with h | h
          · omega
          · have := (List.sorted_cons.mp hsort).1 0 h
            omega
        have hy0 : (0 : Nat) = y := by omega
        rw [setInsert, if_neg hy, if_pos hy0]
    · show setErase 0 s.nonselected = s.nonselected
      apply List.filter_eq_self.mpr
      intro a ha
      simp only [ne_eq, decide_eq_true_eq]
      intro h
      exact hns (h ▸ ha)

/-- Witness for C10 on concrete data: all gains on `Deq` are 0 from the
initial state, `add_medoid 0` is a no-op on `build 2 Deq`, and that build
produced fewer than `k = 2` medoids. -/
theorem claim_C10_witness :
    find_next_medoid Deq (pam_data.init 3 0) = 0 ∧
    ((build 2 Deq).add_medoid 0).medoids = (build 2 Deq).medoids ∧
    ((build 2 Deq).add_medoid 0).nonselected = (build 2 Deq).nonselected ∧
    (build 2 Deq).medoids.length < 2 :=
  ⟨claim_C10.1 Deq (pam_data.init 3 0) (by decide),
   (claim_C10.2.1 (build 2 Deq) (by decide) (by decide) (by decide)).1,
   (claim_C10.2.1 (build 2 Deq) (by decide) (by decide) (by decide)).2,
   claim_C10.2.2⟩

/-- Witness for C4: both rejections at concrete invalid inputs, a Result at
a terminating valid input, and the looping valid input at fuel 7. -/
theorem claim_C4_witness :
    partition_around_medoids 1 1 [] (fun _ => [])
      = Except.error "Error: less than two partitions were requested." ∧
    partition_around_medoids 1 3 [[1]] (fun _ => [])
      = Except.error "Error: not enough rows to create k partitions." ∧
    (∃ o, partition_around_medoids 1 2 [[0], [1]] (fun _ => Dtwo) = Except.ok o) ∧
    partition_around_medoids 7 2 [[0], [1], [2], [3], [4]] (fun _ => Dcyc)
      = Except.ok none :=
  ⟨claim_C4.1 1 1 [] (fun _ => []) (by decide),
   claim_C4.2.1 1 3 [[1]] (fun _ => []) (by decide) (by decide),
   claim_C4.2.2.1 1 2 [[0], [1]] (fun _ => Dtwo) (by decide) (by decide),
   claim_C4.2.2.2 7⟩

end Clupp
